import Mathlib

/-!
Verification of the Cyberchess multiplayer core: a shallow embedding of
`database.py` (SQLite-backed persistence: users, games, active_games,
matchmaking_queue tables and their operations) and of the request handlers in
`server.py` (REST matchmaking endpoints and the socket handlers for moves and
resignation).  Ratings are integers, clock budgets are rationals, timestamps
are naturals supplied explicitly where the source reads the wall clock, and
the chess rules engine (the python-chess library) is treated as an opaque
oracle parameter, as is the PGN renderer.
-/

namespace Cyberchess

/-- Row of the `matchmaking_queue` table: `queue_id` is the AUTOINCREMENT
primary key, `user_id` carries a UNIQUE constraint. -/
structure QueueEntry where
  queue_id : Nat
  user_id : Nat
  rating : Int
  time_control : String
  joined_at : Nat
deriving DecidableEq

/-- Row of the `users` table. -/
structure UserRow where
  user_id : Nat
  username : String
  password_hash : String
  email : Option String
  rating : Int
  games_played : Nat
  games_won : Nat
  games_lost : Nat
  games_drawn : Nat
  created_at : Nat
  last_login : Option Nat
deriving DecidableEq

/-- Row of the `games` table (completed-game records). -/
structure GameRecord where
  game_id : Nat
  white_player_id : Nat
  black_player_id : Nat
  result : String
  pgn : String
  white_rating_before : Int
  black_rating_before : Int
  white_rating_after : Int
  black_rating_after : Int
  time_control : Option String
  played_at : Nat
deriving DecidableEq

/-- Row of the `active_games` table (`session_id` is the primary key). -/
structure ActiveGame where
  session_id : String
  white_player_id : Nat
  black_player_id : Nat
  current_fen : String
  move_history : String
  time_control : String
  white_time_remaining : ℚ
  black_time_remaining : ℚ
  last_move_time : Nat
deriving DecidableEq

/-- The database state: the four tables of `initialize_database`, plus the
AUTOINCREMENT counters for the two tables whose generated keys matter. -/
structure DB where
  users : List UserRow
  games : List GameRecord
  next_game_id : Nat
  active_games : List ActiveGame
  queue : List QueueEntry
  next_queue_id : Nat
deriving DecidableEq

/-- `SELECT * FROM users WHERE user_id = ?` (`get_user_by_id`). -/
def get_user_by_id (db : DB) (user_id : Nat) : Option UserRow :=
  db.users.find? (fun u => u.user_id == user_id)

/-- `UPDATE users SET rating = ? WHERE user_id = ?` (`update_user_rating`). -/
def update_user_rating (db : DB) (user_id : Nat) (new_rating : Int) : DB :=
  let users' := db.users.map
    (fun u => if u.user_id == user_id then { u with rating := new_rating } else u)
  { db with users := users' }

/-- `record_game`: INSERT the completed game, bump `games_played` for both
players, and bump the win/loss/draw counters depending on `result`. -/
def record_game (db : DB) (white_player_id black_player_id : Nat)
    (result pgn : String) (white_rating_before black_rating_before
    white_rating_after black_rating_after : Int)
    (time_control : Option String) (now : Nat) : Nat × DB :=
  let game_id := db.next_game_id
  let games' := db.games ++
    [⟨game_id, white_player_id, black_player_id, result, pgn,
      white_rating_before, black_rating_before,
      white_rating_after, black_rating_after, time_control, now⟩]
  let users1 := db.users.map (fun u =>
    if u.user_id == white_player_id || u.user_id == black_player_id then
      { u with games_played := u.games_played + 1 } else u)
  let users2 :=
    if result == "1-0" then
      (users1.map (fun u =>
        if u.user_id == white_player_id then { u with games_won := u.games_won + 1 } else u)).map
        (fun u =>
          if u.user_id == black_player_id then { u with games_lost := u.games_lost + 1 } else u)
    else if result == "0-1" then
      (users1.map (fun u =>
        if u.user_id == black_player_id then { u with games_won := u.games_won + 1 } else u)).map
        (fun u =>
          if u.user_id == white_player_id then { u with games_lost := u.games_lost + 1 } else u)
    else if result == "1/2-1/2" then
      users1.map (fun u =>
        if u.user_id == white_player_id || u.user_id == black_player_id then
          { u with games_drawn := u.games_drawn + 1 } else u)
    else users1
  (game_id, { db with games := games', users := users2, next_game_id := game_id + 1 })

/-- `INSERT INTO matchmaking_queue ...` (`join_matchmaking_queue`): the UNIQUE
constraint on `user_id` makes the insert fail (returning `False`, database
unchanged) when an entry for the user already exists. -/
def join_matchmaking_queue (db : DB) (user_id : Nat) (rating : Int)
    (time_control : String) (now : Nat) : Bool × DB :=
  if db.queue.any (fun e => e.user_id == user_id) then (false, db)
  else (true, { db with
    queue := db.queue ++ [⟨db.next_queue_id, user_id, rating, time_control, now⟩],
    next_queue_id := db.next_queue_id + 1 })

/-- `DELETE FROM matchmaking_queue WHERE user_id = ?` (`leave_matchmaking_queue`). -/
def leave_matchmaking_queue (db : DB) (user_id : Nat) : DB :=
  { db with queue := db.queue.filter (fun e => e.user_id != user_id) }

/-- `SELECT * FROM matchmaking_queue WHERE user_id = ?` followed by `fetchone`. -/
def queue_lookup (q : List QueueEntry) (user_id : Nat) : Option QueueEntry :=
  q.find? (fun e => e.user_id == user_id)

/-- `ORDER BY joined_at ASC LIMIT 1`: the first row attaining the minimal
`joined_at` among the candidate rows. -/
def earliest : List QueueEntry → Option QueueEntry
  | [] => none
  | e :: es =>
    match earliest es with
    | none => some e
    | some b => if b.joined_at < e.joined_at then some b else some e

/-- `find_match`: look up the caller's queue entry; among the other entries of
the same `time_control` whose rating lies within `rating_range` of the
caller's, return the earliest-joined one (SQL `ORDER BY joined_at ASC LIMIT 1`),
or `none` when the caller is not queued or no candidate qualifies. -/
def find_match (q : List QueueEntry) (user_id : Nat) (rating_range : Nat) :
    Option QueueEntry :=
  match queue_lookup q user_id with
  | none => none
  | some user_entry =>
    earliest (q.filter (fun e =>
      e.user_id != user_id && e.time_control == user_entry.time_control &&
        decide ((e.rating - user_entry.rating).natAbs ≤ rating_range)))

/-- The constant position string inserted by `create_active_game`. -/
def starting_fen : String :=
  "rnbqkbnr/pppppppp/8/8/8/8/PPPPPPPP/RNBQKBNR w KQkq - 0 1"

/-- `create_active_game`: INSERT a fresh `active_games` row.  The position,
move history and both clock budgets are fixed literals (300.0 seconds, the
"5 minutes default" comment in the source), whatever `time_control` says. -/
def create_active_game (db : DB) (session_id : String)
    (white_id black_id : Nat) (time_control : String) (now : Nat) : DB :=
  { db with active_games := db.active_games ++
      [⟨session_id, white_id, black_id, starting_fen, "", time_control,
        300, 300, now⟩] }

/-- `SELECT * FROM active_games WHERE session_id = ?` (`get_active_game`). -/
def get_active_game (db : DB) (session_id : String) : Option ActiveGame :=
  db.active_games.find? (fun g => g.session_id == session_id)

/-- `update_active_game`: overwrite position, move history, both clocks and
the last-move timestamp of the row with the given `session_id`. -/
def update_active_game (db : DB) (session_id fen move_history : String)
    (white_time black_time : ℚ) (now : Nat) : DB :=
  let rows' := db.active_games.map (fun g =>
    if g.session_id == session_id then
      { g with current_fen := fen, move_history := move_history, white_time_remaining := white_time, black_time_remaining := black_time, last_move_time := now }
    else g)
  { db with active_games := rows' }

/-- `DELETE FROM active_games WHERE session_id = ?` (`delete_active_game`). -/
def delete_active_game (db : DB) (session_id : String) : DB :=
  { db with active_games := db.active_games.filter (fun g => g.session_id != session_id) }

/-- Python's built-in `round`, as used by `int(round(new_rating))`: rounds
half-integers to the nearest even integer, everything else to the nearest
integer. -/
noncomputable def pythonRound (x : ℝ) : ℤ :=
  if Int.fract x = 1/2 then (if Even ⌊x⌋ then ⌊x⌋ else ⌊x⌋ + 1) else round x

/-- `calculate_elo_rating`: `expected_score = 1 / (1 + 10 ** ((opponent_rating
- player_rating) / 400))`, `new_rating = player_rating + k_factor * (score -
expected_score)`, returned as `int(round(new_rating))`.  The Python float
arithmetic is idealised over the reals. -/
noncomputable def calculate_elo_rating (player_rating opponent_rating : ℤ)
    (score : ℚ) (k_factor : ℤ) : ℤ :=
  let expected_score : ℝ :=
    1 / (1 + (10:ℝ) ^ (((opponent_rating - player_rating : ℤ) : ℝ) / 400))
  let new_rating : ℝ := (player_rating : ℝ) + (k_factor : ℝ) * ((score : ℝ) - expected_score)
  pythonRound new_rating

/-- The settlement computation of `handle_make_move`'s game-over branch:
map the result string to the score pair (`1-0` ↦ (1,0), `0-1` ↦ (0,1),
anything else ↦ (1/2,1/2)) and apply `calculate_elo_rating` to each side
with the default K-factor 32. -/
noncomputable def settle (white_rating black_rating : ℤ) (result : String) : ℤ × ℤ :=
  let white_score : ℚ := if result = "1-0" then 1 else if result = "0-1" then 0 else 1/2
  let black_score : ℚ := if result = "1-0" then 0 else if result = "0-1" then 1 else 1/2
  (calculate_elo_rating white_rating black_rating white_score 32,
   calculate_elo_rating black_rating white_rating black_score 32)

/-- The rating formula in the spec's words (RatingService, §4.4): new rating
`round(rating + K*(score - expected))` with `expected = 1 / (1 +
10^((ratingB - ratingA)/400))` and K = 32, where `round` is the standard
rounding function.  Kept separate from `calculate_elo_rating` for
comparison. -/
noncomputable def elo_spec (rating opponent_rating : ℤ) (score : ℚ) : ℤ :=
  round ((rating : ℝ) + 32 * ((score : ℝ) -
    1 / (1 + (10:ℝ) ^ (((opponent_rating : ℝ) - (rating : ℝ)) / 400))))

/-- Events emitted by the socket handlers (the `emit` calls that matter to
the claims). -/
inductive Event where
  | error (message : String)
  | move_made (move san fen : String) (game_over : Bool) (result : Option String)
  | ratings_updated (white_rating_change black_rating_change : Int)
  | player_resigned (user_id : Nat) (result : String)
deriving DecidableEq

/-- What the rules oracle (the python-chess library) reports for a legal
move: its SAN rendering, the position after the move, and whether/how the
game ended. -/
structure OracleResult where
  san : String
  new_fen : String
  game_over : Bool
  result : String
deriving DecidableEq

/-- The rules oracle: an opaque legality function from (FEN, UCI move) to a
result, `none` meaning the move is illegal (or unparseable). -/
def Oracle : Type := String → String → Option OracleResult

/-- The side to move, as `chess.Board(fen).turn` reads it from the second
space-separated FEN field (`true` = white, python-chess `chess.WHITE`);
`none` models the exception raised on a malformed FEN. -/
def fenTurn (fen : String) : Option Bool :=
  match fen.data.dropWhile (fun c => c != ' ') with
  | [] => none
  | _ :: t =>
    match t.takeWhile (fun c => c != ' ') with
    | ['w'] => some true
    | ['b'] => some false
    | _ => none

/-- The move-history update in `handle_make_move`: append the UCI move,
space-separated, to a non-empty history; a falsy (empty) history becomes the
move itself. -/
def appendMoveHistory (move_history move_uci : String) : String :=
  if move_history ≠ "" then move_history ++ " " ++ move_uci else move_uci

/-- The `make_move` socket handler.  `oracle` stands for the python-chess
legality check plus move application, `pgn_of` for the `chess.pgn` rendering
of the move history with its result header, and `elo` for
`db.calculate_elo_rating` at the default K-factor (passed as a parameter so
that the handler stays executable).  Returns the emitted events and the
database after the call.  A malformed stored FEN would raise before any
write, hence `([], db)`. -/
def handle_make_move (oracle : Oracle) (pgn_of : String → String → String)
    (elo : Int → Int → ℚ → Int) (db : DB) (session_id : String)
    (user_id : Nat) (move_uci : String) (now : Nat) : List Event × DB :=
  match get_active_game db session_id with
  | none => ([Event.error "Game not found"], db)
  | some game =>
    match fenTurn game.current_fen with
    | none => ([], db)
    | some white_to_move =>
      if (white_to_move && user_id != game.white_player_id) ||
         (!white_to_move && user_id != game.black_player_id) then
        ([Event.error "Not your turn"], db)
      else
        match oracle game.current_fen move_uci with
        | none => ([Event.error "Illegal move"], db)
        | some res =>
          let move_history := appendMoveHistory game.move_history move_uci
          let db1 := update_active_game db session_id res.new_fen move_history
            game.white_time_remaining game.black_time_remaining now
          let move_event := Event.move_made move_uci res.san res.new_fen
            res.game_over (if res.game_over then some res.result else none)
          if res.game_over then
            match get_user_by_id db1 game.white_player_id,
                  get_user_by_id db1 game.black_player_id with
            | some white_player, some black_player =>
              let white_rating_before := white_player.rating
              let black_rating_before := black_player.rating
              let white_score : ℚ :=
                if res.result = "1-0" then 1 else if res.result = "0-1" then 0 else 1/2
              let black_score : ℚ :=
                if res.result = "1-0" then 0 else if res.result = "0-1" then 1 else 1/2
              let white_rating_after := elo white_rating_before black_rating_before white_score
              let black_rating_after := elo black_rating_before white_rating_before black_score
              let db2 := update_user_rating db1 game.white_player_id white_rating_after
              let db3 := update_user_rating db2 game.black_player_id black_rating_after
              let db4 := (record_game db3 game.white_player_id game.black_player_id
                res.result (pgn_of move_history res.result)
                white_rating_before black_rating_before
                white_rating_after black_rating_after
                (some game.time_control) now).2
              let db5 := delete_active_game db4 session_id
              ([move_event,
                Event.ratings_updated (white_rating_after - white_rating_before)
                  (black_rating_after - black_rating_before)], db5)
            | _, _ => ([move_event, Event.error "exception"], db1)
          else
            ([move_event], db1)

/-- The `resign` socket handler: look the session up, derive the result from
who resigned, broadcast `player_resigned`, and delete the active game.  (The
rating/record update announced by the source comment is absent from the
source.) -/
def handle_resign (db : DB) (session_id : String) (user_id : Nat) :
    List Event × DB :=
  match get_active_game db session_id with
  | none => ([Event.error "Game not found"], db)
  | some game =>
    let result := if user_id == game.white_player_id then "0-1" else "1-0"
    ([Event.player_resigned user_id result], delete_active_game db session_id)

/-- A JSON-ish value in a response body row (SQLite TEXT / INTEGER /
TIMESTAMP / NULL). -/
inductive Value where
  | s (v : String)
  | i (v : Int)
  | n (v : Nat)
  | null
deriving DecidableEq

/-- `dict(row)` for a `users` row: the column-name-keyed dictionary. -/
def user_row_dict (u : UserRow) : List (String × Value) :=
  [("user_id", Value.n u.user_id),
   ("username", Value.s u.username),
   ("password_hash", Value.s u.password_hash),
   ("email", match u.email with | some e => Value.s e | none => Value.null),
   ("rating", Value.i u.rating),
   ("games_played", Value.n u.games_played),
   ("games_won", Value.n u.games_won),
   ("games_lost", Value.n u.games_lost),
   ("games_drawn", Value.n u.games_drawn),
   ("created_at", Value.n u.created_at),
   ("last_login", match u.last_login with | some t => Value.n t | none => Value.null)]

/-- `d.pop(key, None)`: remove the binding of `key` (dictionary keys are
unique, so a filter). -/
def dict_pop (d : List (String × Value)) (key : String) : List (String × Value) :=
  d.filter (fun kv => kv.1 != key)

/-- Response of the `/api/user/<user_id>` route. -/
inductive UserResponse where
  | ok (body : List (String × Value))
  | notFound
deriving DecidableEq

/-- The `/api/user/<user_id>` route (`get_user` in `server.py`): fetch the
row, drop the `password_hash` entry, and return the rest; 404 when the user
does not exist. -/
def get_user (db : DB) (user_id : Nat) : UserResponse :=
  match get_user_by_id db user_id with
  | some u => UserResponse.ok (dict_pop (user_row_dict u) "password_hash")
  | none => UserResponse.notFound

/-- The keys of a user-profile response body. -/
def response_keys : UserResponse → List String
  | UserResponse.ok body => body.map Prod.fst
  | UserResponse.notFound => []

/-- Overwrite the stored credential hash of one user, leaving every other
column and row unchanged: the state change quantified over in the
noninterference claim. -/
def set_password_hash (db : DB) (user_id : Nat) (h : String) : DB :=
  let users' := db.users.map
    (fun u => if u.user_id == user_id then { u with password_hash := h } else u)
  { db with users := users' }

/-- Result of the `/api/matchmaking/join` route. -/
inductive JoinResult where
  | userNotFound
  | matched (session_id : String) (your_color : String) (opponent_id : Nat)
  | waiting
  | alreadyInQueue
deriving DecidableEq

/-- The `/api/matchmaking/join` route (`join_matchmaking` in `server.py`):
look the user up, insert them into the queue (409 when already queued), try
`find_match` (tolerance 200); on a match draw a random colour assignment
(`coin_white` = the `random.random() < 0.5` draw), remove both entries from
the queue, create the active game under the fresh `session_id`, and answer
`matched`; otherwise answer `waiting`. -/
def join_matchmaking (db : DB) (user_id : Nat) (time_control : String)
    (now : Nat) (session_id : String) (coin_white : Bool) : JoinResult × DB :=
  match get_user_by_id db user_id with
  | none => (JoinResult.userNotFound, db)
  | some user =>
    let inserted := join_matchmaking_queue db user_id user.rating time_control now
    if inserted.1 then
      match find_match inserted.2.queue user_id 200 with
      | some opponent =>
        let white_id := if coin_white then user_id else opponent.user_id
        let black_id := if coin_white then opponent.user_id else user_id
        let db2 := leave_matchmaking_queue inserted.2 user_id
        let db3 := leave_matchmaking_queue db2 opponent.user_id
        let db4 := create_active_game db3 session_id white_id black_id time_control now
        (JoinResult.matched session_id (if user_id == white_id then "white" else "black")
          opponent.user_id, db4)
      | none => (JoinResult.waiting, inserted.2)
    else (JoinResult.alreadyInQueue, inserted.2)

/-- The queue-facing requests a client can issue, with the data the server
draws at request time (timestamps, the fresh session token, the colour coin)
made explicit. -/
inductive Op where
  | join (user_id : Nat) (time_control : String) (now : Nat)
      (session_id : String) (coin_white : Bool)
  | leave (user_id : Nat)

/-- Apply one request to the database (`/api/matchmaking/join` or
`/api/matchmaking/leave`). -/
def applyOp (db : DB) : Op → DB
  | Op.join user_id time_control now session_id coin_white =>
    (join_matchmaking db user_id time_control now session_id coin_white).2
  | Op.leave user_id => leave_matchmaking_queue db user_id

/-- Run a sequence of queue requests. -/
def runOps (db : DB) : List Op → DB
  | [] => db
  | op :: ops => runOps (applyOp db op) ops

/-- Ghost observation: the pair of `queue_id`s consumed when a request
produces a match — the caller's freshly inserted entry (which gets key
`db.next_queue_id`) and the opponent entry chosen by `find_match`.  Mirrors
the branch structure of `join_matchmaking` without changing it. -/
def matchConsumed (db : DB) : Op → List (Nat × Nat)
  | Op.leave _ => []
  | Op.join user_id time_control now _ _ =>
    match get_user_by_id db user_id with
    | none => []
    | some user =>
      let inserted := join_matchmaking_queue db user_id user.rating time_control now
      if inserted.1 then
        match find_match inserted.2.queue user_id 200 with
        | some opponent => [(db.next_queue_id, opponent.queue_id)]
        | none => []
      else []

/-- All match events along a run. -/
def traceEvents (db : DB) : List Op → List (Nat × Nat)
  | [] => []
  | op :: ops => matchConsumed db op ++ traceEvents (applyOp db op) ops

/-- The queue entries consumed by a list of match events, one flat list. -/
def eventIds : List (Nat × Nat) → List Nat
  | [] => []
  | p :: ps => p.1 :: p.2 :: eventIds ps

/-- The WHERE clause of `find_match`'s candidate query, as a proposition:
another user's entry, same time control, rating within the tolerance of the
caller's entry. -/
def Qualifies (user_entry : QueueEntry) (user_id : Nat) (rating_range : Nat)
    (e : QueueEntry) : Prop :=
  e.user_id ≠ user_id ∧ e.time_control = user_entry.time_control ∧
    (e.rating - user_entry.rating).natAbs ≤ rating_range

/-- What `find_match q user_id rating_range = some opp` guarantees: the
caller is queued, `opp` is a qualifying entry of the queue, and no
qualifying entry joined earlier. -/
def FindMatchSpec (q : List QueueEntry) (user_id : Nat) (rating_range : Nat)
    (opp : QueueEntry) : Prop :=
  ∃ user_entry, queue_lookup q user_id = some user_entry ∧ opp ∈ q ∧
    Qualifies user_entry user_id rating_range opp ∧
    ∀ e ∈ q, Qualifies user_entry user_id rating_range e → opp.joined_at ≤ e.joined_at

/-- One evolution step of the stored sessions by a `make_move` request, with
arbitrary request data and arbitrary oracle/PGN/rating collaborators. -/
def MoveStep (db db' : DB) : Prop :=
  ∃ oracle pgn_of elo session_id user_id move_uci now,
    db' = (handle_make_move oracle pgn_of elo db session_id user_id move_uci now).2

/-- Invariant tying a database's queue to the match events already observed:
queue keys and queued users are duplicate-free, all keys ever handed out are
below the AUTOINCREMENT counter, and an entry consumed by a match never
reappears in the queue. -/
structure QueueInv (db : DB) (past : List Nat) : Prop where
  nodup_ids : (db.queue.map QueueEntry.queue_id).Nodup
  nodup_users : (db.queue.map QueueEntry.user_id).Nodup
  ids_lt : ∀ e ∈ db.queue, e.queue_id < db.next_queue_id
  past_lt : ∀ i ∈ past, i < db.next_queue_id
  past_nodup : past.Nodup
  past_disjoint : ∀ e ∈ db.queue, e.queue_id ∉ past

/-! ## Helper lemmas -/

lemma find?_map_eq {α : Type} (l : List α) (F : α → α) (p : α → Bool)
    (hp : ∀ a, p (F a) = p a) :
    (l.map F).find? p = (l.find? p).map F := by
  induction l with
  | nil => rfl
  | cons a t ih =>
    cases hpa : p a
    · rw [List.map_cons, List.find?_cons_of_neg _ (by simp [hp a, hpa]),
        List.find?_cons_of_neg _ (by simp [hpa]), ih]
    · rw [List.map_cons, List.find?_cons_of_pos _ (by simp [hp a, hpa]),
        List.find?_cons_of_pos _ hpa, Option.map_some']

lemma find?_filter_eq {α : Type} (l : List α) (p q : α → Bool)
    (hpq : ∀ a, p a = true → q a = true) :
    (l.filter q).find? p = l.find? p := by
  induction l with
  | nil => rfl
  | cons a t ih =>
    cases hq : q a
    · have hpa : p a = false := by
        cases hpa : p a
        · rfl
        · rw [hpq a hpa] at hq; exact hq
      rw [List.filter_cons_of_neg (by simp [hq]),
        List.find?_cons_of_neg _ (by simp [hpa]), ih]
    · cases hpa : p a
      · rw [List.filter_cons_of_pos (by rw [hq]), List.find?_cons_of_neg _ (by simp [hpa]),
          List.find?_cons_of_neg _ (by simp [hpa]), ih]
      · rw [List.filter_cons_of_pos (by rw [hq]), List.find?_cons_of_pos _ hpa,
          List.find?_cons_of_pos _ hpa]

lemma get_active_game_session_id {db : DB} {sid : String} {g : ActiveGame}
    (hg : get_active_game db sid = some g) : g.session_id = sid := by
  unfold get_active_game at hg
  have h1 := List.find?_some hg
  exact beq_iff_eq.mp h1

lemma get_active_game_update (db : DB) (sid' fen hist : String)
    (wt bt : ℚ) (now : Nat) (sid : String) :
    get_active_game (update_active_game db sid' fen hist wt bt now) sid =
      (get_active_game db sid).map (fun g =>
        if g.session_id == sid' then
          { g with current_fen := fen, move_history := hist, white_time_remaining := wt, black_time_remaining := bt, last_move_time := now }
        else g) := by
  unfold get_active_game update_active_game
  exact find?_map_eq _ _ _ (fun g => by split <;> rfl)

lemma get_active_game_update_ne (db : DB) (sid' fen hist : String)
    (wt bt : ℚ) (now : Nat) (sid : String) (g : ActiveGame)
    (hg : get_active_game db sid = some g) (hne : sid ≠ sid') :
    get_active_game (update_active_game db sid' fen hist wt bt now) sid = some g := by
  have hsid : g.session_id = sid := get_active_game_session_id hg
  rw [get_active_game_update, hg, Option.map_some']
  have hf : (g.session_id == sid') = false := by
    rw [hsid]; exact beq_eq_false_iff_ne.mpr hne
  simp [hf]

lemma get_active_game_update_self (db : DB) (sid fen hist : String)
    (wt bt : ℚ) (now : Nat) (g : ActiveGame)
    (hg : get_active_game db sid = some g) :
    get_active_game (update_active_game db sid fen hist wt bt now) sid =
      some { g with current_fen := fen, move_history := hist, white_time_remaining := wt, black_time_remaining := bt, last_move_time := now } := by
  have hsid : g.session_id = sid := get_active_game_session_id hg
  rw [get_active_game_update, hg, Option.map_some']
  simp [hsid]

lemma get_active_game_delete_self (db : DB) (sid : String) :
    get_active_game (delete_active_game db sid) sid = none := by
  unfold get_active_game delete_active_game
  rw [List.find?_eq_none]
  intro g hmem
  have h2 := (List.mem_filter.mp hmem).2
  intro hp
  rw [beq_iff_eq.mp hp] at h2
  simp at h2

lemma get_active_game_delete_ne (db : DB) (sid' sid : String) (hne : sid ≠ sid') :
    get_active_game (delete_active_game db sid') sid = get_active_game db sid := by
  unfold get_active_game delete_active_game
  exact find?_filter_eq _ _ _ (fun g hp => by
    rw [bne_iff_ne]
    rw [beq_iff_eq.mp hp]
    exact hne)

lemma active_games_update_user_rating (db : DB) (uid : Nat) (r : Int) :
    (update_user_rating db uid r).active_games = db.active_games := rfl

lemma active_games_record_game (db : DB) (w b : Nat) (result pgn : String)
    (wrb brb wra bra : Int) (tc : Option String) (now : Nat) :
    ((record_game db w b result pgn wrb brb wra bra tc now).2).active_games =
      db.active_games := rfl

lemma earliest_eq_none {l : List QueueEntry} : earliest l = none ↔ l = [] := by
  cases l with
  | nil => simp [earliest]
  | cons e es =>
    unfold earliest
    constructor
    · intro h
      cases he : earliest es with
      | none => rw [he] at h; cases h
      | some c =>
        rw [he] at h
        by_cases hlt : c.joined_at < e.joined_at
        · simp only [if_pos hlt] at h; cases h
        · simp only [if_neg hlt] at h; cases h
    · intro h; cases h

lemma earliest_mem : ∀ {l : List QueueEntry} {b : QueueEntry},
    earliest l = some b → b ∈ l := by
  intro l
  induction l with
  | nil => intro b h; cases h
  | cons e es ih =>
    intro b h
    unfold earliest at h
    cases he : earliest es with
    | none =>
      rw [he] at h
      cases h
      exact List.mem_cons_self _ _
    | some c =>
      rw [he] at h
      by_cases hlt : c.joined_at < e.joined_at
      · simp only [if_pos hlt] at h
        cases h
        exact List.mem_cons_of_mem _ (ih he)
      · simp only [if_neg hlt] at h
        cases h
        exact List.mem_cons_self _ _

lemma earliest_le : ∀ {l : List QueueEntry} {b : QueueEntry},
    earliest l = some b → ∀ x ∈ l, b.joined_at ≤ x.joined_at := by
  intro l
  induction l with
  | nil => intro b h; cases h
  | cons e es ih =>
    intro b h x hx
    unfold earliest at h
    cases he : earliest es with
    | none =>
      rw [he] at h
      cases h
      have hes : es = [] := earliest_eq_none.mp he
      subst hes
      rcases List.mem_singleton.mp hx with rfl
      exact Nat.le_refl _
    | some c =>
      rw [he] at h
      by_cases hlt : c.joined_at < e.joined_at
      · simp only [if_pos hlt] at h
        cases h
        rcases List.mem_cons.mp hx with rfl | hx'
        · exact Nat.le_of_lt hlt
        · exact ih he x hx'
      · simp only [if_neg hlt] at h
        cases h
        rcases List.mem_cons.mp hx with rfl | hx'
        · exact Nat.le_refl _
        · exact Nat.le_trans (Nat.le_of_not_lt hlt) (ih he x hx')

lemma qualifies_iff (user_entry : QueueEntry) (user_id rating_range : Nat)
    (e : QueueEntry) :
    ((e.user_id != user_id) && (e.time_control == user_entry.time_control) &&
        decide ((e.rating - user_entry.rating).natAbs ≤ rating_range)) = true ↔
      Qualifies user_entry user_id rating_range e := by
  simp [Qualifies, and_assoc]

lemma nodup_snoc {α : Type} {l : List α} {a : α} (hl : l.Nodup) (ha : a ∉ l) :
    (l ++ [a]).Nodup := by
  rw [List.nodup_append]
  exact ⟨hl, List.nodup_singleton a, List.disjoint_singleton.mpr ha⟩

lemma eventIds_append (a b : List (Nat × Nat)) :
    eventIds (a ++ b) = eventIds a ++ eventIds b := by
  induction a with
  | nil => rfl
  | cons p ps ih => simp [eventIds, ih]

lemma queue_any_false {q : List QueueEntry} {uid : Nat}
    (h : q.any (fun e => e.user_id == uid) = false) :
    ∀ e ∈ q, e.user_id ≠ uid := by
  intro e he
  have h1 := List.any_eq_false.mp h e he
  simpa using h1

lemma find_match_opp {q : List QueueEntry} {user_id rating_range : Nat}
    {opp : QueueEntry} (h : find_match q user_id rating_range = some opp) :
    opp ∈ q ∧ opp.user_id ≠ user_id := by
  unfold find_match at h
  cases hl : queue_lookup q user_id with
  | none => rw [hl] at h; cases h
  | some ue =>
    simp only [hl] at h
    have hm := earliest_mem h
    refine ⟨List.mem_of_mem_filter hm, ?_⟩
    have hp := (List.mem_filter.mp hm).2
    simp only [Bool.and_eq_true, bne_iff_ne] at hp
    exact hp.1.1

lemma queueInv_applyOp {db : DB} {past : List Nat} (h : QueueInv db past) (op : Op) :
    QueueInv (applyOp db op) (past ++ eventIds (matchConsumed db op)) := by
  cases op with
  | leave uid =>
    simp only [applyOp, matchConsumed, eventIds, List.append_nil]
    have hsub : List.Sublist (db.queue.filter (fun e => e.user_id != uid)) db.queue :=
      List.filter_sublist _
    exact
      { nodup_ids := h.nodup_ids.sublist (hsub.map _)
        nodup_users := h.nodup_users.sublist (hsub.map _)
        ids_lt := fun e he => h.ids_lt e (List.mem_of_mem_filter he)
        past_lt := h.past_lt
        past_nodup := h.past_nodup
        past_disjoint := fun e he => h.past_disjoint e (List.mem_of_mem_filter he) }
  | join uid tc now sid coin =>
    cases hu : get_user_by_id db uid with
    | none =>
      simp only [applyOp, join_matchmaking, matchConsumed, hu, eventIds, List.append_nil]
      exact h
    | some user =>
      cases hany : db.queue.any (fun e => e.user_id == uid) with
      | true =>
        have hins : join_matchmaking_queue db uid user.rating tc now = (false, db) := by
          unfold join_matchmaking_queue
          rw [hany]
          rfl
        simp only [applyOp, join_matchmaking, matchConsumed, hu, hins, eventIds,
          Bool.false_eq_true, if_false, List.append_nil]
        exact h
      | false =>
        have hfresh : ∀ e ∈ db.queue, e.user_id ≠ uid := queue_any_false hany
        have hins : join_matchmaking_queue db uid user.rating tc now =
            (true, { db with
              queue := db.queue ++ [⟨db.next_queue_id, uid, user.rating, tc, now⟩],
              next_queue_id := db.next_queue_id + 1 }) := by
          unfold join_matchmaking_queue
          rw [hany]
          rfl
        set newE : QueueEntry := ⟨db.next_queue_id, uid, user.rating, tc, now⟩ with hnewE
        set qJ : List QueueEntry := db.queue ++ [newE] with hqJ
        have hJid : (qJ.map QueueEntry.queue_id).Nodup := by
          rw [hqJ, List.map_append]
          refine nodup_snoc h.nodup_ids ?_
          intro hmem
          rcases List.mem_map.mp hmem with ⟨e, he, hid⟩
          exact absurd (hid ▸ h.ids_lt e he) (lt_irrefl _)
        have hJuser : (qJ.map QueueEntry.user_id).Nodup := by
          rw [hqJ, List.map_append]
          refine nodup_snoc h.nodup_users ?_
          intro hmem
          rcases List.mem_map.mp hmem with ⟨e, he, hid⟩
          exact hfresh e he hid
        have hJlt : ∀ e ∈ qJ, e.queue_id < db.next_queue_id + 1 := by
          intro e he
          rcases List.mem_append.mp he with he' | he'
          · exact Nat.lt_succ_of_lt (h.ids_lt e he')
          · rcases List.mem_singleton.mp he' with rfl
            exact Nat.lt_succ_self _
        cases hm : find_match qJ uid 200 with
        | none =>
          simp only [applyOp, join_matchmaking, matchConsumed, hu, hins, hm, eventIds,
            List.append_nil]
          exact
            { nodup_ids := hJid
              nodup_users := hJuser
              ids_lt := hJlt
              past_lt := fun i hi => Nat.lt_succ_of_lt (h.past_lt i hi)
              past_nodup := h.past_nodup
              past_disjoint := by
                intro e he
                rcases List.mem_append.mp he with he' | he'
                · exact h.past_disjoint e he'
                · rcases List.mem_singleton.mp he' with rfl
                  intro hmem
                  exact absurd (h.past_lt _ hmem) (lt_irrefl _) }
        | some opp =>
          have hoppq := find_match_opp hm
          have hoppdb : opp ∈ db.queue := by
            rcases List.mem_append.mp hoppq.1 with h' | h'
            · exact h'
            · rcases List.mem_singleton.mp h' with rfl
              exact absurd rfl hoppq.2
          have hb_lt : opp.queue_id < db.next_queue_id := h.ids_lt opp hoppdb
          have hb_past : opp.queue_id ∉ past := h.past_disjoint opp hoppdb
          have hmem2 : ∀ e, e ∈ (qJ.filter (fun x => x.user_id != uid)).filter
              (fun x => x.user_id != opp.user_id) →
              e ∈ qJ ∧ e.user_id ≠ uid ∧ e.user_id ≠ opp.user_id := by
            intro e he
            have h2 := List.mem_filter.mp he
            have h1 := List.mem_filter.mp h2.1
            exact ⟨h1.1, bne_iff_ne.mp h1.2, bne_iff_ne.mp h2.2⟩
          have hindb : ∀ e, e ∈ qJ → e.user_id ≠ uid → e ∈ db.queue := by
            intro e he hne
            rcases List.mem_append.mp he with h' | h'
            · exact h'
            · rcases List.mem_singleton.mp h' with rfl
              exact absurd rfl hne
          have hsub : List.Sublist ((qJ.filter (fun x => x.user_id != uid)).filter
              (fun x => x.user_id != opp.user_id)) qJ :=
            (List.filter_sublist _).trans (List.filter_sublist _)
          simp only [applyOp, join_matchmaking, matchConsumed, hu, hins, hm, eventIds]
          exact
            { nodup_ids := hJid.sublist (hsub.map _)
              nodup_users := hJuser.sublist (hsub.map _)
              ids_lt := fun e he => hJlt e (hsub.subset he)
              past_lt := by
                intro i hi
                rcases List.mem_append.mp hi with hi' | hi'
                · exact Nat.lt_succ_of_lt (h.past_lt i hi')
                · rcases List.mem_cons.mp hi' with rfl | hi''
                  · exact Nat.lt_succ_self _
                  · rcases List.mem_singleton.mp hi'' with rfl
                    exact Nat.lt_succ_of_lt hb_lt
              past_nodup := by
                rw [List.nodup_append]
                refine ⟨h.past_nodup, ?_, ?_⟩
                · refine List.nodup_cons.mpr ⟨?_, List.nodup_singleton _⟩
                  intro hmem
                  rcases List.mem_singleton.mp hmem with heq
                  exact absurd (heq ▸ hb_lt) (lt_irrefl _)
                · intro a ha hb
                  rcases List.mem_cons.mp hb with rfl | hb'
                  · exact absurd (h.past_lt _ ha) (lt_irrefl _)
                  · rcases List.mem_singleton.mp hb' with rfl
                    exact hb_past ha
              past_disjoint := by
                intro e he
                rcases hmem2 e he with ⟨heJ, hne1, hne2⟩
                have hedb : e ∈ db.queue := hindb e heJ hne1
                intro hmem
                rcases List.mem_append.mp hmem with hp | hp
                · exact h.past_disjoint e hedb hp
                · rcases List.mem_cons.mp hp with heq | hp'
                  · exact absurd (heq ▸ h.ids_lt e hedb) (lt_irrefl _)
                  · rcases List.mem_singleton.mp hp' with heq
                    have : e = opp := List.inj_on_of_nodup_map hJid heJ hoppq.1 heq
                    exact hne2 (this ▸ rfl) }

lemma queueInv_runOps : ∀ (ops : List Op) (db : DB) (past : List Nat),
    QueueInv db past → QueueInv (runOps db ops) (past ++ eventIds (traceEvents db ops)) := by
  intro ops
  induction ops with
  | nil =>
    intro db past h
    simpa [runOps, traceEvents, eventIds] using h
  | cons op ops ih =>
    intro db past h
    have h2 := ih (applyOp db op) _ (queueInv_applyOp h op)
    simp only [runOps, traceEvents, eventIds_append, List.append_assoc]
    rwa [List.append_assoc] at h2

/-! ## Claim theorems -/

/-- C9: every freshly created game session starts from the fixed initial
configuration — the standard starting position, an empty move history, and
300.0 seconds on each clock — whatever the `time_control` argument says. -/
theorem C9_new_session_fixed_start :
    starting_fen = "rnbqkbnr/pppppppp/8/8/8/8/PPPPPPPP/RNBQKBNR w KQkq - 0 1" ∧
    ∀ (db : DB) (session_id : String) (white_id black_id : Nat)
      (time_control : String) (now : Nat),
      (create_active_game db session_id white_id black_id time_control now).active_games =
        db.active_games ++
          [⟨session_id, white_id, black_id, starting_fen, "", time_control, 300, 300, now⟩] :=
  ⟨rfl, fun _ _ _ _ _ _ => rfl⟩

/-- C10: the user-profile response never carries a `password_hash` key, and
the response is unchanged when the stored credential hash of that user is
replaced by anything else (the database states differ only in that hash). -/
theorem C10_profile_hides_credential_hash :
    ∀ (db : DB) (user_id : Nat) (h : String),
      "password_hash" ∉ response_keys (get_user db user_id) ∧
      get_user (set_password_hash db user_id h) user_id = get_user db user_id := by
  intro db user_id h
  constructor
  · cases hu : get_user_by_id db user_id with
    | none => simp [get_user, hu, response_keys]
    | some u => simp [get_user, hu, response_keys, dict_pop, user_row_dict]
  · have hfind : get_user_by_id (set_password_hash db user_id h) user_id =
        (get_user_by_id db user_id).map
          (fun u => if u.user_id == user_id then { u with password_hash := h } else u) := by
      unfold get_user_by_id set_password_hash
      exact find?_map_eq _ _ _ (fun u => by split <;> rfl)
    cases hu : get_user_by_id db user_id with
    | none => simp [get_user, hfind, hu]
    | some u =>
      have huid : (u.user_id == user_id) = true := by
        unfold get_user_by_id at hu
        have h1 := List.find?_some hu
        exact h1
      simp only [get_user, hfind, hu, Option.map_some', huid, if_pos]
      cases hue : u.email <;> cases hul : u.last_login <;>
        simp [dict_pop, user_row_dict, hue, hul]

/-- C1: contrary to the claim, the `resign` handler performs no settlement:
it leaves the `users` table (ratings) and the `games` table (completed
records) untouched in every state, and on the concrete session below it
simply deletes the active game — no rating computation, no CompletedRecord. -/
theorem C1_resign_performs_no_settlement :
    (∀ (db : DB) (session_id : String) (user_id : Nat),
      (handle_resign db session_id user_id).2.users = db.users ∧
      (handle_resign db session_id user_id).2.games = db.games) ∧
    handle_resign
        ⟨[⟨1, "alice", "h1", none, 1200, 0, 0, 0, 0, 0, none⟩,
          ⟨2, "bob", "h2", none, 1300, 0, 0, 0, 0, 0, none⟩], [], 0,
         [⟨"s1", 1, 2, starting_fen, "", "blitz", 300, 300, 0⟩], [], 0⟩ "s1" 1 =
      ([Event.player_resigned 1 "0-1"],
       ⟨[⟨1, "alice", "h1", none, 1200, 0, 0, 0, 0, 0, none⟩,
         ⟨2, "bob", "h2", none, 1300, 0, 0, 0, 0, 0, none⟩], [], 0, [], [], 0⟩) := by
  constructor
  · intro db session_id user_id
    unfold handle_resign
    cases hg : get_active_game db session_id with
    | none => exact ⟨rfl, rfl⟩
    | some game => exact ⟨rfl, rfl⟩
  · decide

/-- C2 (counterexample): with caller 10 (rating 1200) queued, candidate 11
(rating 1150, joined first) and candidate 12 (rating 1201, joined later,
strictly closer in rating) both qualifying, `find_match` returns candidate
11 — the earliest-joined one, not the rating-closest one the claim
specifies. -/
theorem C2_counterexample_not_closest :
    find_match [⟨0, 10, 1200, "blitz", 0⟩, ⟨1, 11, 1150, "blitz", 1⟩,
        ⟨2, 12, 1201, "blitz", 2⟩] 10 200 = some ⟨1, 11, 1150, "blitz", 1⟩ ∧
      (⟨2, 12, 1201, "blitz", 2⟩ : QueueEntry) ∈
        [⟨0, 10, 1200, "blitz", 0⟩, ⟨1, 11, 1150, "blitz", 1⟩,
         (⟨2, 12, 1201, "blitz", 2⟩ : QueueEntry)] ∧
      (12 : Nat) ≠ 10 ∧ "blitz" = "blitz" ∧
      ((1201 - 1200 : Int)).natAbs ≤ 200 ∧
      ((1201 - 1200 : Int)).natAbs < ((1150 - 1200 : Int)).natAbs := by
  decide

/-- C2 (amended): `find_match` returns a qualifying candidate — same
compatibility class, not the caller, rating within the tolerance — that
joined no later than any other qualifying candidate (earliest-enqueued, not
rating-closest); it returns `none` exactly when the caller is not queued or
no candidate qualifies. -/
theorem C2_find_match_earliest_within_tolerance :
    ∀ (q : List QueueEntry) (user_id rating_range : Nat),
      (∀ opp, find_match q user_id rating_range = some opp →
        FindMatchSpec q user_id rating_range opp) ∧
      (find_match q user_id rating_range = none →
        ∀ user_entry, queue_lookup q user_id = some user_entry →
          ∀ e ∈ q, ¬ Qualifies user_entry user_id rating_range e) := by
  intro q user_id rating_range
  constructor
  · intro opp h
    unfold find_match at h
    cases hl : queue_lookup q user_id with
    | none => rw [hl] at h; cases h
    | some ue =>
      simp only [hl] at h
      refine ⟨ue, hl, List.mem_of_mem_filter (earliest_mem h), ?_, ?_⟩
      · exact (qualifies_iff ue user_id rating_range opp).mp
          (List.mem_filter.mp (earliest_mem h)).2
      · intro e he hqual
        exact earliest_le h e (List.mem_filter.mpr
          ⟨he, (qualifies_iff ue user_id rating_range e).mpr hqual⟩)
  · intro h user_entry hl e he hqual
    unfold find_match at h
    simp only [hl] at h
    cases hea : earliest (q.filter (fun e =>
        (e.user_id != user_id) && (e.time_control == user_entry.time_control) &&
          decide ((e.rating - user_entry.rating).natAbs ≤ rating_range))) with
    | some b => rw [hea] at h; cases h
    | none =>
      have hnil := earliest_eq_none.mp hea
      have hmem : e ∈ q.filter (fun e =>
          (e.user_id != user_id) && (e.time_control == user_entry.time_control) &&
            decide ((e.rating - user_entry.rating).natAbs ≤ rating_range)) :=
        List.mem_filter.mpr ⟨he, (qualifies_iff user_entry user_id rating_range e).mpr hqual⟩
      rw [hnil] at hmem
      cases hmem

/-- C2 (witness for the amended theorem): on the counterexample queue the
returned opponent 11 satisfies the amended specification. -/
theorem C2_find_match_witness :
    FindMatchSpec [⟨0, 10, 1200, "blitz", 0⟩, ⟨1, 11, 1150, "blitz", 1⟩,
      ⟨2, 12, 1201, "blitz", 2⟩] 10 200 ⟨1, 11, 1150, "blitz", 1⟩ :=
  (C2_find_match_earliest_within_tolerance
    [⟨0, 10, 1200, "blitz", 0⟩, ⟨1, 11, 1150, "blitz", 1⟩,
      ⟨2, 12, 1201, "blitz", 2⟩] 10 200).1 ⟨1, 11, 1150, "blitz", 1⟩ (by decide)

/-- C4: a move proposed by the participant who does not hold the turn
derived from the stored position is answered with the "Not your turn" error
and the database — position, move history, clocks, everything — is returned
unchanged, for every oracle and every rating function. -/
theorem C4_not_your_turn_rejected :
    ∀ (oracle : Oracle) (pgn_of : String → String → String)
      (elo : Int → Int → ℚ → Int) (db : DB) (session_id move_uci : String)
      (now : Nat) (game : ActiveGame) (white_to_move : Bool),
      get_active_game db session_id = some game →
      fenTurn game.current_fen = some white_to_move →
      game.white_player_id ≠ game.black_player_id →
      handle_make_move oracle pgn_of elo db session_id
          (if white_to_move then game.black_player_id else game.white_player_id)
          move_uci now =
        ([Event.error "Not your turn"], db) := by
  intro oracle pgn_of elo db session_id move_uci now game white_to_move hg ht hne
  cases white_to_move <;>
    simp [handle_make_move, hg, ht, bne_iff_ne, hne, Ne.symm hne]

/-- C4 (witness): in a concrete session at the starting position (White to
move), a move by the black participant is rejected with "Not your turn" and
the state is unchanged. -/
theorem C4_witness :
    handle_make_move (fun _ _ => none) (fun h _ => h) (fun a _ _ => a)
        ⟨[], [], 0, [⟨"s1", 1, 2, starting_fen, "", "blitz", 300, 300, 0⟩], [], 0⟩
        "s1" 2 "e7e5" 3 =
      ([Event.error "Not your turn"],
       ⟨[], [], 0, [⟨"s1", 1, 2, starting_fen, "", "blitz", 300, 300, 0⟩], [], 0⟩) :=
  C4_not_your_turn_rejected (fun _ _ => none) (fun h _ => h) (fun a _ _ => a)
    ⟨[], [], 0, [⟨"s1", 1, 2, starting_fen, "", "blitz", 300, 300, 0⟩], [], 0⟩
    "s1" "e7e5" 3 ⟨"s1", 1, 2, starting_fen, "", "blitz", 300, 300, 0⟩ true
    (by decide) (by decide) (by decide)

/-- C3: the handler performs no clock check.  With White's remaining budget
already at zero, a legal move by White is validated and committed: the
session survives with the same zero clock, the move is appended, and no
`TimeExpiredError`-like rejection or forced termination happens — contrary
to the claimed clock policy. -/
theorem C3_zero_clock_not_enforced :
    handle_make_move
        (fun _ _ => some ⟨"e4",
          "rnbqkbnr/pppppppp/8/8/4P3/8/PPPP1PPP/RNBQKBNR b KQkq e3 0 1", false, "*"⟩)
        (fun h _ => h) (fun a _ _ => a)
        ⟨[⟨1, "alice", "h1", none, 1200, 0, 0, 0, 0, 0, none⟩,
          ⟨2, "bob", "h2", none, 1300, 0, 0, 0, 0, 0, none⟩], [], 0,
         [⟨"s1", 1, 2, starting_fen, "", "blitz", 0, 300, 0⟩], [], 0⟩
        "s1" 1 "e2e4" 5 =
      ([Event.move_made "e2e4" "e4"
          "rnbqkbnr/pppppppp/8/8/4P3/8/PPPP1PPP/RNBQKBNR b KQkq e3 0 1" false none],
       ⟨[⟨1, "alice", "h1", none, 1200, 0, 0, 0, 0, 0, none⟩,
         ⟨2, "bob", "h2", none, 1300, 0, 0, 0, 0, 0, none⟩], [], 0,
        [⟨"s1", 1, 2,
          "rnbqkbnr/pppppppp/8/8/4P3/8/PPPP1PPP/RNBQKBNR b KQkq e3 0 1",
          "e2e4", "blitz", 0, 300, 5⟩], [], 0⟩) := by
  decide

/-- C6: inserting into the matchmaking queue while an entry for the same
account exists fails (the UNIQUE constraint) and leaves the database
unchanged; and along every sequence of join/leave requests from an empty
queue, the queue never holds two entries with the same account id. -/
theorem C6_join_unique_account :
    (∀ (db : DB) (user_id : Nat) (rating : Int) (time_control : String) (now : Nat),
      (∃ e ∈ db.queue, e.user_id = user_id) →
      join_matchmaking_queue db user_id rating time_control now = (false, db)) ∧
    (∀ (db : DB) (ops : List Op), db.queue = [] →
      ((runOps db ops).queue.map QueueEntry.user_id).Nodup) := by
  constructor
  · intro db user_id rating time_control now h
    rcases h with ⟨e, he, heq⟩
    have hany : db.queue.any (fun e => e.user_id == user_id) = true :=
      List.any_eq_true.mpr ⟨e, he, beq_iff_eq.mpr heq⟩
    unfold join_matchmaking_queue
    rw [hany]
    rfl
  · intro db ops h0
    have hinv : QueueInv db [] := by
      constructor <;> simp [h0]
    exact (queueInv_runOps ops db [] hinv).nodup_users

/-- C6 (witness): a second join for account 5 fails and leaves the queue
unchanged, and a concrete two-join run keeps the queued account ids
duplicate-free. -/
theorem C6_witness :
    join_matchmaking_queue ⟨[], [], 0, [], [⟨0, 5, 1200, "blitz", 0⟩], 1⟩ 5 1200 "blitz" 3 =
      (false, ⟨[], [], 0, [], [⟨0, 5, 1200, "blitz", 0⟩], 1⟩) ∧
    ((runOps ⟨[⟨1, "alice", "h1", none, 1200, 0, 0, 0, 0, 0, none⟩,
        ⟨2, "bob", "h2", none, 1300, 0, 0, 0, 0, 0, none⟩], [], 0, [], [], 0⟩
      [Op.join 1 "blitz" 0 "sX" true, Op.join 2 "rapid" 1 "sY" true]).queue.map
        QueueEntry.user_id).Nodup :=
  ⟨C6_join_unique_account.1 ⟨[], [], 0, [], [⟨0, 5, 1200, "blitz", 0⟩], 1⟩ 5 1200 "blitz" 3
      ⟨⟨0, 5, 1200, "blitz", 0⟩, by decide, rfl⟩,
   C6_join_unique_account.2 _ [Op.join 1 "blitz" 0 "sX" true, Op.join 2 "rapid" 1 "sY" true] rfl⟩

/-- C7: when a join produces a match, both participants' entries are gone
from the queue in the state the response is computed from; and along every
sequence of join/leave requests from an empty queue, no queue entry (by its
primary key) is ever consumed by two match events. -/
theorem C7_no_double_match :
    (∀ (db : DB) (user_id : Nat) (time_control : String) (now : Nat)
      (session_id : String) (coin_white : Bool) (s c : String) (o : Nat) (db' : DB),
      join_matchmaking db user_id time_control now session_id coin_white =
        (JoinResult.matched s c o, db') →
      ∀ e ∈ db'.queue, e.user_id ≠ user_id ∧ e.user_id ≠ o) ∧
    (∀ (db : DB) (ops : List Op), db.queue = [] →
      (eventIds (traceEvents db ops)).Nodup) := by
  constructor
  · intro db user_id time_control now session_id coin_white s c o db' h
    unfold join_matchmaking at h
    cases hu : get_user_by_id db user_id with
    | none => rw [hu] at h; cases h
    | some user =>
      simp only [hu] at h
      cases hins : (join_matchmaking_queue db user_id user.rating time_control now).1 with
      | false => simp only [hins, Bool.false_eq_true, if_false] at h; cases h
      | true =>
        simp only [hins, if_true] at h
        cases hm : find_match
            (join_matchmaking_queue db user_id user.rating time_control now).2.queue
            user_id 200 with
        | none => simp only [hm] at h; cases h
        | some opp =>
          simp only [hm] at h
          have hdb' : db' = create_active_game
              (leave_matchmaking_queue
                (leave_matchmaking_queue
                  (join_matchmaking_queue db user_id user.rating time_control now).2 user_id)
                opp.user_id)
              session_id (if coin_white then user_id else opp.user_id)
              (if coin_white then opp.user_id else user_id) time_control now := by
            have := congrArg Prod.snd h
            exact this.symm
          have ho : o = opp.user_id := by
            have := congrArg Prod.fst h
            cases this
            rfl
          intro e he
          rw [hdb'] at he
          have h2 := List.mem_filter.mp he
          have h1 := List.mem_filter.mp h2.1
          exact ⟨bne_iff_ne.mp h1.2, ho ▸ bne_iff_ne.mp h2.2⟩
  · intro db ops h0
    have hinv : QueueInv db [] := by
      constructor <;> simp [h0]
    have h := (queueInv_runOps ops db [] hinv).past_nodup
    simpa using h

/-- C7 (witness): a concrete matching join leaves neither participant in the
queue, and a concrete two-join run producing one match has duplicate-free
consumed entry keys. -/
theorem C7_witness :
    (∀ e ∈ (join_matchmaking
        ⟨[⟨1, "alice", "h1", none, 1200, 0, 0, 0, 0, 0, none⟩,
          ⟨2, "bob", "h2", none, 1300, 0, 0, 0, 0, 0, none⟩], [], 0, [],
         [⟨0, 1, 1200, "blitz", 0⟩], 1⟩ 2 "blitz" 1 "sY" true).2.queue,
      e.user_id ≠ 2 ∧ e.user_id ≠ 1) ∧
    (eventIds (traceEvents
      ⟨[⟨1, "alice", "h1", none, 1200, 0, 0, 0, 0, 0, none⟩,
        ⟨2, "bob", "h2", none, 1300, 0, 0, 0, 0, 0, none⟩], [], 0, [], [], 0⟩
      [Op.join 1 "blitz" 0 "sX" true, Op.join 2 "blitz" 1 "sY" true])).Nodup :=
  ⟨C7_no_double_match.1
      ⟨[⟨1, "alice", "h1", none, 1200, 0, 0, 0, 0, 0, none⟩,
        ⟨2, "bob", "h2", none, 1300, 0, 0, 0, 0, 0, none⟩], [], 0, [],
       [⟨0, 1, 1200, "blitz", 0⟩], 1⟩ 2 "blitz" 1 "sY" true "sY" "white" 1 _ (by decide),
   C7_no_double_match.2 _ [Op.join 1 "blitz" 0 "sX" true, Op.join 2 "blitz" 1 "sY" true] rfl⟩

lemma get_active_game_update_other (db : DB) (sid' fen hist : String)
    (wt bt : ℚ) (now : Nat) (sid : String) (hne : sid ≠ sid') :
    get_active_game (update_active_game db sid' fen hist wt bt now) sid =
      get_active_game db sid := by
  rw [get_active_game_update]
  cases hg2 : get_active_game db sid with
  | none => rfl
  | some g =>
    have hsid := get_active_game_session_id hg2
    have hb : (g.session_id == sid') = false := by
      rw [hsid]; exact beq_eq_false_iff_ne.mpr hne
    rw [Option.map_some']
    exact congrArg some (if_neg (by simp [hb]))

lemma data_le_appendMoveHistory (h m : String) :
    h.data <+: (appendMoveHistory h m).data := by
  unfold appendMoveHistory
  split
  · refine ⟨(" " ++ m).data, ?_⟩
    simp [String.data_append]
  · rename_i hnot
    have h0 : h = "" := by
      by_contra hne
      exact hnot hne
    subst h0
    exact ⟨m.data, rfl⟩

/-- Master lemma for one `make_move` call: if a session is present afterwards
it was present before, with its move history either untouched or extended by
exactly the submitted move (and sessions other than the addressed one are
never touched). -/
lemma handle_make_move_log (oracle : Oracle) (pgn_of : String → String → String)
    (elo : Int → Int → ℚ → Int) (db : DB) (session_id : String) (user_id : Nat)
    (move_uci : String) (now : Nat) (sid : String) (g' : ActiveGame)
    (hs' : get_active_game
      (handle_make_move oracle pgn_of elo db session_id user_id move_uci now).2 sid =
        some g') :
    ∃ g, get_active_game db sid = some g ∧
      (g' = g ∨ (sid = session_id ∧
        g'.move_history = appendMoveHistory g.move_history move_uci)) := by
  cases hg : get_active_game db session_id with
  | none =>
    simp only [handle_make_move, hg] at hs'
    exact ⟨g', hs', Or.inl rfl⟩
  | some game =>
    cases ht : fenTurn game.current_fen with
    | none =>
      simp only [handle_make_move, hg, ht] at hs'
      exact ⟨g', hs', Or.inl rfl⟩
    | some white_to_move =>
      cases hcond : ((white_to_move && user_id != game.white_player_id) ||
          (!white_to_move && user_id != game.black_player_id)) with
      | true =>
        simp only [handle_make_move, hg, ht, hcond, if_true] at hs'
        exact ⟨g', hs', Or.inl rfl⟩
      | false =>
        cases ho : oracle game.current_fen move_uci with
        | none =>
          simp [handle_make_move, hg, ht, hcond, ho] at hs'
          exact ⟨g', hs', Or.inl rfl⟩
        | some res =>
          cases hover : res.game_over with
          | false =>
            simp only [handle_make_move, hg, ht, hcond, ho, hover,
              Bool.false_eq_true, if_false] at hs'
            by_cases hsid : sid = session_id
            · subst hsid
              rw [get_active_game_update_self db sid _ _ _ _ _ game hg] at hs'
              cases hs'
              exact ⟨game, hg, Or.inr ⟨rfl, rfl⟩⟩
            · rw [get_active_game_update_other db session_id _ _ _ _ _ sid hsid] at hs'
              exact ⟨g', hs', Or.inl rfl⟩
          | true =>
            simp only [handle_make_move, hg, ht, hcond, ho, hover, if_true,
              Bool.false_eq_true, if_false] at hs'
            generalize hdb1 : update_active_game db session_id res.new_fen
              (appendMoveHistory game.move_history move_uci)
              game.white_time_remaining game.black_time_remaining now = db1 at hs'
            cases hwp : get_user_by_id db1 game.white_player_id with
            | none =>
              simp only [hwp] at hs'
              by_cases hsid : sid = session_id
              · subst hsid
                rw [← hdb1, get_active_game_update_self db sid _ _ _ _ _ game hg] at hs'
                cases hs'
                exact ⟨game, hg, Or.inr ⟨rfl, rfl⟩⟩
              · rw [← hdb1,
                  get_active_game_update_other db session_id _ _ _ _ _ sid hsid] at hs'
                exact ⟨g', hs', Or.inl rfl⟩
            | some white_player =>
              cases hbp : get_user_by_id db1 game.black_player_id with
              | none =>
                simp only [hwp, hbp] at hs'
                by_cases hsid : sid = session_id
                · subst hsid
                  rw [← hdb1, get_active_game_update_self db sid _ _ _ _ _ game hg] at hs'
                  cases hs'
                  exact ⟨game, hg, Or.inr ⟨rfl, rfl⟩⟩
                · rw [← hdb1,
                    get_active_game_update_other db session_id _ _ _ _ _ sid hsid] at hs'
                  exact ⟨g', hs', Or.inl rfl⟩
              | some black_player =>
                simp only [hwp, hbp] at hs'
                by_cases hsid : sid = session_id
                · subst hsid
                  rw [get_active_game_delete_self] at hs'
                  cases hs'
                · rw [get_active_game_delete_ne _ _ _ hsid] at hs'
                  have hrec : get_active_game
                      (record_game (update_user_rating
                          (update_user_rating db1 game.white_player_id
                            (elo white_player.rating black_player.rating
                              (if res.result = "1-0" then 1 else
                                if res.result = "0-1" then 0 else 1/2)))
                          game.black_player_id
                          (elo black_player.rating white_player.rating
                            (if res.result = "1-0" then 0 else
                              if res.result = "0-1" then 1 else 1/2)))
                        game.white_player_id game.black_player_id res.result
                        (pgn_of (appendMoveHistory game.move_history move_uci) res.result)
                        white_player.rating black_player.rating
                        (elo white_player.rating black_player.rating
                          (if res.result = "1-0" then 1 else
                            if res.result = "0-1" then 0 else 1/2))
                        (elo black_player.rating white_player.rating
                          (if res.result = "1-0" then 0 else
                            if res.result = "0-1" then 1 else 1/2))
                        (some game.time_control) now).2 sid =
                      get_active_game db1 sid := rfl
                  rw [hrec, ← hdb1,
                    get_active_game_update_other db session_id _ _ _ _ _ sid hsid] at hs'
                  exact ⟨g', hs', Or.inl rfl⟩

/-- C8: the stored move log is append-only.  Each `make_move` call either
leaves a session's log untouched or extends it by exactly the submitted
move, and along any sequence of `make_move` steps the log observed earlier
is a prefix of the log observed later. -/
theorem C8_transition_log_append_only :
    (∀ (oracle : Oracle) (pgn_of : String → String → String)
      (elo : Int → Int → ℚ → Int) (db : DB) (session_id : String) (user_id : Nat)
      (move_uci : String) (now : Nat) (game g' : ActiveGame),
      get_active_game db session_id = some game →
      get_active_game
          (handle_make_move oracle pgn_of elo db session_id user_id move_uci now).2
          session_id = some g' →
      g'.move_history = game.move_history ∨
        g'.move_history = appendMoveHistory game.move_history move_uci) ∧
    (∀ db db' : DB, Relation.ReflTransGen MoveStep db db' →
      ∀ (sid : String) (g g' : ActiveGame),
        get_active_game db sid = some g → get_active_game db' sid = some g' →
        g.move_history.data <+: g'.move_history.data) := by
  constructor
  · intro oracle pgn_of elo db session_id user_id move_uci now game g' hg hs'
    rcases handle_make_move_log oracle pgn_of elo db session_id user_id move_uci now
        session_id g' hs' with ⟨g, hgg, hcase⟩
    rw [hg] at hgg
    cases hgg
    rcases hcase with rfl | ⟨-, hh⟩
    · exact Or.inl rfl
    · exact Or.inr hh
  · intro db db' hsteps
    induction hsteps with
    | refl =>
      intro sid g g' hg hg'
      rw [hg] at hg'
      cases hg'
      exact ⟨[], List.append_nil _⟩
    | tail _ hstep ih =>
      intro sid g g' hg hg'
      rcases hstep with ⟨oracle, pgn_of, elo, csid, uid, mv, nw, rfl⟩
      rcases handle_make_move_log oracle pgn_of elo _ csid uid mv nw sid g' hg'
        with ⟨gm, hgm, hcase⟩
      have hpre := ih sid g gm hg hgm
      rcases hcase with rfl | ⟨-, hh⟩
      · exact hpre
      · refine hpre.trans ?_
        rw [hh]
        exact data_le_appendMoveHistory gm.move_history mv

/-- C8 (witness): a concrete accepted move extends the empty log to "e2e4",
and the earlier log is a prefix of the later one. -/
theorem C8_witness : ("" : String).data <+: ("e2e4" : String).data :=
  C8_transition_log_append_only.2
    ⟨[], [], 0, [⟨"s1", 1, 2, starting_fen, "", "blitz", 300, 300, 0⟩], [], 0⟩
    ⟨[], [], 0,
     [⟨"s1", 1, 2, "rnbqkbnr/pppppppp/8/8/4P3/8/PPPP1PPP/RNBQKBNR b KQkq e3 0 1",
       "e2e4", "blitz", 300, 300, 5⟩], [], 0⟩
    (Relation.ReflTransGen.single
      ⟨(fun _ _ => some ⟨"e4",
          "rnbqkbnr/pppppppp/8/8/4P3/8/PPPP1PPP/RNBQKBNR b KQkq e3 0 1", false, "*"⟩),
        (fun h _ => h), (fun a _ _ => a), "s1", 1, "e2e4", 5, by decide⟩)
    "s1" ⟨"s1", 1, 2, starting_fen, "", "blitz", 300, 300, 0⟩
    ⟨"s1", 1, 2, "rnbqkbnr/pppppppp/8/8/4P3/8/PPPP1PPP/RNBQKBNR b KQkq e3 0 1",
      "e2e4", "blitz", 300, 300, 5⟩
    (by decide) (by decide)

lemma pythonRound_of_fract_ne {x : ℝ} (h : Int.fract x ≠ 1/2) :
    pythonRound x = round x := by
  unfold pythonRound
  exact if_neg h

lemma pythonRound_eq_low {x : ℝ} {z : ℤ} (h1 : (z:ℝ) ≤ x) (h2 : x < (z:ℝ) + 1/2) :
    pythonRound x = z := by
  have hfr : Int.fract x ≠ 1/2 := by
    have hfl : ⌊x⌋ = z := Int.floor_eq_iff.mpr ⟨h1, by linarith⟩
    rw [Int.fract, hfl]
    intro hc
    have : x = (z:ℝ) + 1/2 := by linarith
    rw [this] at h2
    linarith
  rw [pythonRound_of_fract_ne hfr, round_eq]
  exact Int.floor_eq_iff.mpr ⟨by linarith, by linarith⟩

lemma pythonRound_eq_high {x : ℝ} {z : ℤ} (h1 : (z:ℝ) + 1/2 < x) (h2 : x < (z:ℝ) + 1) :
    pythonRound x = z + 1 := by
  have hfl : ⌊x⌋ = z := Int.floor_eq_iff.mpr ⟨by linarith, by linarith⟩
  have hfr : Int.fract x ≠ 1/2 := by
    rw [Int.fract, hfl]
    intro hc
    have : x = (z:ℝ) + 1/2 := by linarith
    rw [this] at h1
    linarith
  rw [pythonRound_of_fract_ne hfr, round_eq]
  refine Int.floor_eq_iff.mpr ⟨by push_cast; linarith, by push_cast; linarith⟩

lemma irrational_rpow_ten_div_nat (n : ℕ) (hn : ¬ 400 ∣ n) :
    Irrational ((10:ℝ) ^ ((n:ℝ)/400)) := by
  have hx400 : ((10:ℝ) ^ ((n:ℝ)/400)) ^ (400:ℕ) = ((10^n : ℤ) : ℝ) := by
    rw [← Real.rpow_natCast ((10:ℝ) ^ ((n:ℝ)/400)) 400,
      ← Real.rpow_mul (by norm_num : (0:ℝ) ≤ 10)]
    push_cast
    rw [div_mul_cancel₀ _ (by norm_num : (400:ℝ) ≠ 0), Real.rpow_natCast]
  refine irrational_nrt_of_notint_nrt 400 (10^n) hx400 ?_ (by norm_num)
  rintro ⟨y, hy⟩
  rw [hy] at hx400
  have hyint : y ^ (400:ℕ) = 10^n := by exact_mod_cast hx400
  have hynat : y.natAbs ^ 400 = 10 ^ n := by
    have h1 := congrArg Int.natAbs hyint
    simpa [Int.natAbs_pow] using h1
  have hfac := congrArg (fun m => Nat.factorization m 2) hynat
  simp only [Nat.factorization_pow, Finsupp.smul_apply, smul_eq_mul] at hfac
  have h10 : Nat.factorization 10 2 = 1 := by
    have h25 : (10:ℕ) = 2 * 5 := rfl
    rw [h25, Nat.factorization_mul (by norm_num) (by norm_num),
      Nat.Prime.factorization (by norm_num), Nat.Prime.factorization (by norm_num)]
    rw [Finsupp.add_apply, Finsupp.single_eq_same,
      Finsupp.single_eq_of_ne (by norm_num : (5:ℕ) ≠ 2)]
    norm_num
  rw [h10, mul_one] at hfac
  exact hn ⟨_, hfac.symm⟩

lemma irrational_rpow_ten_div_int (d : ℤ) (hd : ¬ ((400:ℤ) ∣ d)) :
    Irrational ((10:ℝ) ^ ((d:ℝ)/400)) := by
  have hdn : ¬ (400 ∣ d.natAbs) := by
    intro hdvd
    exact hd (dvd_trans (Int.natCast_dvd_natCast.mpr hdvd) (Int.natAbs_dvd.mpr dvd_rfl))
  rcases le_or_lt 0 d with hpos | hneg
  · have h2 : (d.natAbs : ℝ) = (d : ℝ) := by
      rw [Int.cast_natAbs, abs_of_nonneg hpos]
    rw [← h2]
    exact irrational_rpow_ten_div_nat _ hdn
  · have h2 : (d.natAbs : ℝ) = -(d : ℝ) := by
      rw [Int.cast_natAbs, abs_of_neg hneg]
      push_cast
      ring
    have hcast : (d:ℝ)/400 = -((d.natAbs : ℝ)/400) := by
      rw [h2]
      ring
    rw [hcast, Real.rpow_neg (by norm_num : (0:ℝ) ≤ 10)]
    exact (irrational_rpow_ten_div_nat _ hdn).inv

lemma no_half_dyadic (m k : ℤ) (hodd : k % 2 = 1) (hk1 : 1 ≤ k) (hk63 : k ≤ 63)
    (heq : (k:ℝ) * (10:ℝ)^m = 64 - (k:ℝ)) : False := by
  rcases le_or_lt 0 m with hm | hm
  · obtain ⟨M, rfl⟩ := Int.eq_ofNat_of_zero_le hm
    have hzint : (k:ℝ) * ((10^M : ℤ):ℝ) = ((64 - k : ℤ):ℝ) := by
      push_cast
      rw [← heq]
      norm_cast
    have hint : k * 10^M = 64 - k := by exact_mod_cast hzint
    have hpow_pos : (0:ℤ) < 10^M := pow_pos (by norm_num) M
    have hub : (10:ℤ)^M ≤ 63 := by nlinarith
    have hM1 : M ≤ 1 := by
      by_contra hM2
      push_neg at hM2
      have : (10:ℤ)^2 ≤ 10^M := pow_le_pow_right₀ (by norm_num) hM2
      norm_num at this
      omega
    interval_cases M
    · norm_num at hint
      omega
    · norm_num at hint
      omega
  · set M : ℕ := (-m).toNat with hM
    have hMm : m = -(M:ℤ) := by omega
    have hM1 : 1 ≤ M := by omega
    have hzq : (10:ℝ)^m = ((10:ℝ)^M)⁻¹ := by
      rw [hMm, zpow_neg, zpow_natCast]
    rw [hzq] at heq
    have hpow_pos : (0:ℝ) < (10:ℝ)^M := by positivity
    have hreal : (k:ℝ) = (64 - (k:ℝ)) * (10:ℝ)^M := by
      field_simp at heq
      linarith
    have hint : k = (64 - k) * 10^M := by exact_mod_cast hreal
    have hgap : (1:ℤ) ≤ 64 - k := by omega
    have hub : (10:ℤ)^M ≤ 63 := by nlinarith [pow_pos (show (0:ℤ)<10 by norm_num) M]
    have hM2 : M ≤ 1 := by
      by_contra hM2
      push_neg at hM2
      have : (10:ℤ)^2 ≤ 10^M := pow_le_pow_right₀ (by norm_num) hM2
      norm_num at this
      omega
    have hMeq : M = 1 := by omega
    rw [hMeq] at hint
    norm_num at hint
    omega

/-- Where the half-integer analysis comes together: the Elo update value can
never land exactly on a half-integer, for the three scores the server uses. -/
lemma elo_fract_ne (r o : ℤ) (s : ℚ) (hs : s = 1 ∨ s = 0 ∨ s = 1/2) :
    Int.fract ((r : ℝ) + (32:ℝ) * ((s:ℝ) -
      1/(1 + (10:ℝ) ^ (((o:ℝ) - (r:ℝ))/400)))) ≠ 1/2 := by
  have hcast : ((o:ℝ) - (r:ℝ))/400 = (((o - r : ℤ)):ℝ)/400 := by
    push_cast
    ring
  rw [hcast]
  set d : ℤ := o - r with hd
  set t : ℝ := (10:ℝ) ^ ((d:ℝ)/400) with ht
  have ht0 : 0 < t := Real.rpow_pos_of_pos (by norm_num) _
  have h1t : 0 < 1 + t := by linarith
  set e : ℝ := 1/(1+t) with he
  have he0 : 0 < e := by positivity
  have he1 : e < 1 := by
    rw [he, div_lt_one h1t]
    linarith
  intro hf
  obtain ⟨n, hn⟩ : ∃ n : ℤ, (32:ℝ) * (s:ℝ) = (n:ℝ) := by
    rcases hs with rfl | rfl | rfl
    · exact ⟨32, by norm_num⟩
    · exact ⟨0, by norm_num⟩
    · exact ⟨16, by norm_num⟩
  set x : ℝ := (r:ℝ) + (32:ℝ) * ((s:ℝ) - e) with hx_def
  have hx : x = (⌊x⌋ : ℝ) + 1/2 := by
    have h1 := Int.floor_add_fract x
    rw [hf] at h1
    linarith
  set k : ℤ := 2*(r + n - ⌊x⌋) - 1 with hk
  have hxe : x = (r:ℝ) + (n:ℝ) - 32*e := by
    rw [hx_def]
    rw [mul_sub, hn]
    ring
  have hke : (64:ℝ)*e = (k:ℝ) := by
    have hkr : (k:ℝ) = 2*((r:ℝ) + (n:ℝ) - (⌊x⌋:ℝ)) - 1 := by
      rw [hk]
      push_cast
      ring
    rw [hkr]
    linarith [hx, hxe]
  have hk1 : 1 ≤ k := by
    have hpos : (0:ℝ) < (k:ℝ) := by
      rw [← hke]
      positivity
    have : (0:ℤ) < k := by exact_mod_cast hpos
    omega
  have hk63 : k ≤ 63 := by
    have hlt : (k:ℝ) < 64 := by
      rw [← hke]
      nlinarith
    have : k < 64 := by exact_mod_cast hlt
    omega
  have hkodd : k % 2 = 1 := by omega
  have hteq : (k:ℝ) * t = 64 - (k:ℝ) := by
    rw [he] at hke
    have h64 : (64:ℝ) = (k:ℝ) * (1 + t) := by
      field_simp at hke
      linarith
    nlinarith [h64]
  by_cases hdvd : (400:ℤ) ∣ d
  · obtain ⟨m, hm⟩ := hdvd
    have htm : t = (10:ℝ)^m := by
      rw [ht, hm]
      have hcast : ((400*m : ℤ):ℝ)/400 = ((m:ℤ):ℝ) := by
        push_cast
        ring
      rw [hcast, Real.rpow_intCast]
    rw [htm] at hteq
    exact no_half_dyadic m k hkodd hk1 hk63 hteq
  · have hirr : Irrational t := by
      rw [ht]
      exact irrational_rpow_ten_div_int d hdvd
    have hk0 : (k:ℝ) ≠ 0 := by
      have : (0:ℤ) < k := by omega
      exact_mod_cast ne_of_gt (by exact_mod_cast this : (0:ℝ) < (k:ℝ))
    have htrat : t = (((64 - k : ℤ)):ℝ)/((k:ℤ):ℝ) := by
      push_cast
      field_simp
      linarith [hteq]
    exact hirr ⟨((64 - k : ℚ))/((k : ℤ) : ℚ), by push_cast; rw [htrat]; push_cast; ring⟩

lemma calculate_elo_rating_32 (p o : ℤ) (s : ℚ) :
    calculate_elo_rating p o s 32 =
      pythonRound ((p : ℝ) + 32 * ((s : ℝ) -
        1 / (1 + (10:ℝ) ^ (((o:ℝ) - (p:ℝ)) / 400)))) := by
  unfold calculate_elo_rating
  have h1 : (((o - p : ℤ)):ℝ) = (o:ℝ) - (p:ℝ) := by
    push_cast
    ring
  have h2 : (((32:ℤ)):ℝ) = (32:ℝ) := by norm_num
  rw [h1, h2]

lemma sqrt_ten_lb : (3.16:ℝ) < Real.sqrt 10 :=
  (Real.lt_sqrt (by norm_num)).mpr (by norm_num)

lemma sqrt_ten_ub : Real.sqrt 10 < 3.17 :=
  (Real.sqrt_lt' (by norm_num)).mpr (by norm_num)

lemma elo_draw_1200 : calculate_elo_rating 1200 1200 (1/2) 32 = 1200 := by
  rw [calculate_elo_rating_32]
  have hexp : (10:ℝ) ^ ((((1200:ℤ):ℝ) - ((1200:ℤ):ℝ)) / 400) = 1 := by
    rw [show ((((1200:ℤ):ℝ)) - ((1200:ℤ):ℝ)) / 400 = (0:ℝ) by norm_num, Real.rpow_zero]
  rw [hexp]
  refine pythonRound_eq_low ?_ ?_ <;> push_cast <;> norm_num

lemma elo_win_1200_1400 : calculate_elo_rating 1200 1400 1 32 = 1224 := by
  rw [calculate_elo_rating_32]
  have hexp : (10:ℝ) ^ ((((1400:ℤ):ℝ) - ((1200:ℤ):ℝ)) / 400) = Real.sqrt 10 := by
    rw [show ((((1400:ℤ):ℝ)) - ((1200:ℤ):ℝ)) / 400 = (1/2 : ℝ) by norm_num,
      ← Real.sqrt_eq_rpow]
  rw [hexp]
  have hs1 := sqrt_ten_lb
  have hs2 := sqrt_ten_ub
  have h1 : (0:ℝ) < 1 + Real.sqrt 10 := by linarith
  have hb1 : 1/(1 + Real.sqrt 10) < 1/4.16 :=
    one_div_lt_one_div_of_lt (by norm_num) (by linarith)
  have hb2 : (1/4.17:ℝ) < 1/(1 + Real.sqrt 10) :=
    one_div_lt_one_div_of_lt h1 (by linarith)
  refine pythonRound_eq_low ?_ ?_ <;> push_cast <;> linarith

lemma elo_loss_1400_1200 : calculate_elo_rating 1400 1200 0 32 = 1376 := by
  rw [calculate_elo_rating_32]
  have hexp : (10:ℝ) ^ ((((1200:ℤ):ℝ) - ((1400:ℤ):ℝ)) / 400) = (Real.sqrt 10)⁻¹ := by
    rw [show ((((1200:ℤ):ℝ)) - ((1400:ℤ):ℝ)) / 400 = -(1/2 : ℝ) by norm_num,
      Real.rpow_neg (by norm_num : (0:ℝ) ≤ 10), ← Real.sqrt_eq_rpow]
  rw [hexp]
  have hs1 := sqrt_ten_lb
  have hs2 := sqrt_ten_ub
  have hs0 : (0:ℝ) < Real.sqrt 10 := by linarith
  have hi1 : (1/3.17:ℝ) < (Real.sqrt 10)⁻¹ := by
    rw [← one_div]
    exact one_div_lt_one_div_of_lt hs0 (by linarith)
  have hi2 : (Real.sqrt 10)⁻¹ < 1/3.16 := by
    rw [← one_div]
    exact one_div_lt_one_div_of_lt (by norm_num) (by linarith)
  have h1 : (0:ℝ) < 1 + (Real.sqrt 10)⁻¹ := by positivity
  have hb1 : 1/(1 + (Real.sqrt 10)⁻¹) < 1/(1 + 1/3.17) :=
    one_div_lt_one_div_of_lt (by norm_num) (by linarith)
  have hb2 : (1:ℝ)/(1 + 1/3.16) < 1/(1 + (Real.sqrt 10)⁻¹) :=
    one_div_lt_one_div_of_lt h1 (by linarith)
  have hb1' : 1/(1 + (Real.sqrt 10)⁻¹) < (0.7602:ℝ) := by
    refine lt_of_lt_of_le hb1 ?_
    norm_num
  have hb2' : (0.7596:ℝ) < 1/(1 + (Real.sqrt 10)⁻¹) := by
    exact lt_of_le_of_lt (by norm_num) hb2
  rw [show (1376:ℤ) = 1375 + 1 by norm_num]
  refine pythonRound_eq_high ?_ ?_ <;> push_cast <;> linarith

/-- C5: the settlement computation is the pure Elo update.  A draw between
equals leaves both ratings at 1200; when the 1200-player beats the
1400-player the winner strictly gains and the opponent strictly loses by the
same integer amount; and on every integer rating pair and every score the
server uses ({1, 0, 1/2}) the code equals the spec's formula
round(rating + K*(score - expected)). -/
theorem C5_elo_settlement :
    settle 1200 1200 "1/2-1/2" = (1200, 1200) ∧
    1200 < (settle 1200 1400 "1-0").1 ∧
    (settle 1200 1400 "1-0").2 < 1400 ∧
    (settle 1200 1400 "1-0").1 - 1200 = 1400 - (settle 1200 1400 "1-0").2 ∧
    ∀ (rating opponent_rating : ℤ) (score : ℚ),
      score = 1 ∨ score = 0 ∨ score = 1/2 →
      calculate_elo_rating rating opponent_rating score 32 =
        elo_spec rating opponent_rating score := by
  have hsettle : settle 1200 1400 "1-0" =
      (calculate_elo_rating 1200 1400 1 32, calculate_elo_rating 1400 1200 0 32) := by
    unfold settle
    norm_num
  have hdraw : settle 1200 1200 "1/2-1/2" =
      (calculate_elo_rating 1200 1200 (1/2) 32, calculate_elo_rating 1200 1200 (1/2) 32) := by
    unfold settle
    rw [if_neg (by decide), if_neg (by decide), if_neg (by decide), if_neg (by decide)]
  refine ⟨?_, ?_, ?_, ?_, ?_⟩
  · rw [hdraw, elo_draw_1200]
  · rw [hsettle]
    simp only [elo_win_1200_1400]
    norm_num
  · rw [hsettle]
    simp only [elo_loss_1400_1200]
    norm_num
  · rw [hsettle]
    simp only [elo_win_1200_1400, elo_loss_1400_1200]
    norm_num
  · intro rating opponent_rating score hscore
    rw [calculate_elo_rating_32]
    unfold elo_spec
    exact pythonRound_of_fract_ne (elo_fract_ne rating opponent_rating score hscore)

/-- C5 (witness): the formula clause at ratings 1200 vs 1400 with score 1. -/
theorem C5_witness : calculate_elo_rating 1200 1400 1 32 = elo_spec 1200 1400 1 :=
  C5_elo_settlement.2.2.2.2 1200 1400 1 (Or.inl rfl)

end Cyberchess
